import Mathlib

/-!
Shallow embedding of the `maybe-zod` package core (`Maybe` and `AsyncMaybe`
from `src/index.ts`) and proofs about its result-pair protocol.

Modelling conventions:
* A JavaScript exception is modelled by its message (`JSError := String`).
* A nullable TypeScript slot `X | null` is modelled by `Option X`
  (`none` = `null`/`undefined`).
* A promise of `X` that may reject is modelled by `Except JSError X`
  (`Except.ok` = fulfilled, `Except.error` = rejected).
* A transform `fn : (params: T) => U` is modelled as
  `α → Except JSError (Option β)`: it may throw (`Except.error`) and the
  value it returns may itself be null (`none`), as in the repository's own
  examples where the transform is `() => {}`.
* The zod engine is an external collaborator; the wrapper only calls
  `safeParse` / `safeParseAsync` and reads `result.success`, `result.data`
  and `result.error?.message`, so the engine is modelled by exactly that
  interface.
-/

namespace MaybeZod

/-- A JavaScript exception, modelled by its message string. -/
abbrev JSError := String

/-- Model of zod's `ZodError` as seen by the wrapper: only `.message` is read. -/
structure ZodError where
  message : String
deriving DecidableEq

/-- Outcome of zod's `safeParse`: `{success: true, data}` or
`{success: false, error}`.  The error is optional, matching the defensive
optional chaining `result.error?.message` in the source. -/
inductive SafeParseResult (α : Type) where
  | success (data : α)
  | failure (error : Option ZodError)
deriving DecidableEq

/-- The synchronous validation engine: `safeParse` never throws. -/
structure Schema (α : Type) where
  safeParse : α → SafeParseResult α

/-- The asynchronous validation engine: `safeParseAsync` returns a promise
that may reject. -/
structure AsyncSchema (α : Type) where
  safeParseAsync : α → Except JSError (SafeParseResult α)

/-- `Maybe` from `src/index.ts`:
```
const result = schema.safeParse(data);
return result.success ? [null, fn(result.data)] : [result.error?.message, null];
```
The outer `Except` is the call's own exception behaviour: `safeParse` never
throws, so the only way the call can throw is if `fn` throws — nothing
catches it here. -/
def Maybe {α β : Type} (fn : α → Except JSError (Option β)) (schema : Schema α)
    (data : α) : Except JSError (Option String × Option β) :=
  match schema.safeParse data with
  | .success d =>
      match fn d with
      | .ok v => .ok (none, v)
      | .error e => .error e
  | .failure e => .ok (e.map ZodError.message, none)

/-- The `try` block of `AsyncMaybe` from `src/index.ts`:
```
const result = await schema.safeParseAsync(await data);
return result.success ? [null, fn(result.data)] : [result.error?.message, null];
```
Each step propagates a thrown/rejected error: awaiting a rejected input
throws, `safeParseAsync` may reject, and the call `fn(result.data)` — which
sits inside the `try` in the source — may throw. -/
def asyncBody {α β : Type} (fn : α → Except JSError (Option β))
    (schema : AsyncSchema α) (data : Except JSError α) :
    Except JSError (Option String × Option β) :=
  match data with
  | .error e => .error e
  | .ok x =>
      match schema.safeParseAsync x with
      | .error e => .error e
      | .ok (.success d) =>
          match fn d with
          | .error e => .error e
          | .ok v => .ok (none, v)
      | .ok (.failure e) => .ok (e.map ZodError.message, none)

/-- `AsyncMaybe` from `src/index.ts`: the `try`/`catch` wrapping `asyncBody`:
```
try { ...asyncBody... } catch (error) { return ['Unknown error', null]; }
```
The returned promise is `Except.ok` of the pair when the body returns, and
the `catch` converts any thrown error into the sentinel pair, so the promise
itself is always fulfilled. -/
def AsyncMaybe {α β : Type} (fn : α → Except JSError (Option β))
    (schema : AsyncSchema α) (data : Except JSError α) :
    Except JSError (Option String × Option β) :=
  match asyncBody fn schema data with
  | .ok pair => .ok pair
  | .error _ => .ok (some "Unknown error", none)

/-- Exactly one of the two slots of a result pair is non-empty. -/
def exactlyOne {β : Type} (p : Option String × Option β) : Prop :=
  (p.1 ≠ none ∧ p.2 = none) ∨ (p.1 = none ∧ p.2 ≠ none)

/-- Models `z.array(z.number())` applied to a well-typed number array:
validation always succeeds and returns the array unchanged. -/
def numberArraySchema : Schema (List Int) :=
  ⟨fun xs => .success xs⟩

/-- The `sum` transform of the test suite:
`(numbers: number[]) => numbers.reduce((a, b) => a + b, 0)`. -/
def sumNumbers (numbers : List Int) : Int :=
  numbers.foldl (· + ·) 0

/-- Models `z.boolean()` used through `safeParseAsync` on a well-typed
boolean: always succeeds with the input itself. -/
def boolAsyncSchema : AsyncSchema Bool :=
  ⟨fun b => .ok (.success b)⟩

/-- Models `z.number()` used through `safeParseAsync` on a well-typed
number: always succeeds with the input itself. -/
def natAsyncSchema : AsyncSchema Nat :=
  ⟨fun n => .ok (.success n)⟩

/-- Models `z.number()` applied to a well-typed number: always succeeds. -/
def natSchema : Schema Nat :=
  ⟨fun n => .success n⟩

/-- A schema whose failure outcome carries no error object (the defensive
null case guarded by `result.error?.message`). -/
def noMessageSchema : Schema Bool :=
  ⟨fun _ => .failure none⟩

/-- A schema that rejects every input with a message. -/
def rejectBoolSchema : Schema Bool :=
  ⟨fun _ => .failure (some ⟨"rejected"⟩)⟩

/-- A transform that returns null, as in the example
`Maybe<Product>(() => {}, productSchema)` from the repository. -/
def nullTransform : Nat → Except JSError (Option Nat) :=
  fun _ => .ok none

/-- A transform that throws when applied (synchronous throw). -/
def throwingNatTransform : Nat → Except JSError (Option Nat) :=
  fun _ => .error "boom"

/-- A transform over booleans that throws when applied. -/
def explodingTransform : Bool → Except JSError (Option Bool) :=
  fun _ => .error "kaboom"

/-- A single validation-rule violation as reported by the engine, exposing
its human-readable message. -/
structure ZodIssue where
  message : String
deriving DecidableEq

/-- Joins strings with commas, as in a JSON array body. -/
def joinWithComma : List String → String
  | [] => ""
  | [s] => s
  | s :: rest => s ++ "," ++ joinWithComma rest

/-- The engine's diagnostics-to-string projection: a JSON-array-shaped
message with one object per violation (zod's `ZodError.message` is the
serialized issue list). -/
def encodeIssues (issues : List ZodIssue) : String :=
  "[" ++ joinWithComma
    (issues.map (fun i => "\x7b\"message\":\"" ++ i.message ++ "\"\x7d"))
    ++ "]"

/-- Splits a character list at commas, keeping every segment. -/
def splitCommaAux : List Char → List Char → List String
  | [], acc => [String.mk acc.reverse]
  | c :: rest, acc =>
    if c = ',' then String.mk acc.reverse :: splitCommaAux rest []
    else splitCommaAux rest (c :: acc)

/-- Decodes a JSON-array-shaped diagnostic string back into its entries:
strips the outer brackets and splits the body at commas (the entry
collection of the decoded diagnostics; entry messages contain no comma). -/
def decodeEntries (s : String) : List String :=
  splitCommaAux (s.toList.drop 1).dropLast []

/-- The input shape of the test suite's user schema.  The age is modelled
as an integer, so zod's `.int()` rule is satisfied by typing. -/
structure UserInput where
  name : String
  age : Int
  email : String
deriving DecidableEq

/-- Model of zod's email format check, adequate for the inputs considered
here: an address must at least contain an `@`. -/
def emailValid (s : String) : Bool :=
  s.toList.contains '@'

/-- Modelled engine behaviour for the test schema
`z.object({name: z.string().min(2).max(50), age: z.number().int().positive(),
email: z.string().email()})`: one issue per violated rule, with the message
strings the test suite pins down. -/
def userIssues (u : UserInput) : List ZodIssue :=
  (if u.name.length < 2 then
    [⟨"String must contain at least 2 character(s)"⟩] else []) ++
  (if 50 < u.name.length then
    [⟨"String must contain at most 50 character(s)"⟩] else []) ++
  (if u.age ≤ 0 then [⟨"Number must be greater than 0"⟩] else []) ++
  (if emailValid u.email then [] else [⟨"Invalid email"⟩])

/-- The user schema as a validation engine: success when no rule is
violated, otherwise a failure whose error message aggregates all issues
into a JSON-array-shaped string. -/
def userSchema : Schema UserInput :=
  ⟨fun u =>
    if userIssues u = [] then .success u
    else .failure (some ⟨encodeIssues (userIssues u)⟩)⟩

/-- The processing transform of the scenario, returning a field of the
validated user. -/
def displayNameTransform : UserInput → Except JSError (Option String) :=
  fun u => .ok (some u.name)

/-- C2: for every transform `g`, schema `S` and input `x` that conforms to
`S` (validation succeeds, returning `x` itself), the synchronous validator
returns the pair with absent error and `g` applied to the validated data. -/
theorem maybe_success (α β : Type) (g : α → Option β) (S : Schema α) (x : α)
    (h : S.safeParse x = .success x) :
    Maybe (fun a => Except.ok (g a)) S x = .ok (none, g x) := by
  simp [Maybe, h]

/-- C2 witness: schema array-of-number with sum transform on `[1,2,3,4,5]`
yields `(absent, 15)`. -/
theorem maybe_success_witness :
    numberArraySchema.safeParse [1, 2, 3, 4, 5] = .success [1, 2, 3, 4, 5] ∧
    Maybe (fun l => Except.ok (some (sumNumbers l))) numberArraySchema
        [1, 2, 3, 4, 5] = .ok (none, some 15) :=
  ⟨rfl, maybe_success (List Int) Int (fun l => some (sumNumbers l))
    numberArraySchema [1, 2, 3, 4, 5] rfl⟩

/-- C3: for every transform and async schema, if the pending input is
rejected — whatever the rejection's message `e` — the async validator
resolves to exactly `(some "Unknown error", none)`; the original diagnostic
detail `e` is discarded. -/
theorem asyncMaybe_rejected_input (α β : Type)
    (fn : α → Except JSError (Option β)) (S : AsyncSchema α) (e : JSError) :
    AsyncMaybe fn S (.error e) = .ok (some "Unknown error", none) := rfl

/-- C4: if the pending input resolves to `x` and async validation succeeds
with `x`, the async validator resolves to `(none, g x)`: the value slot
holds exactly what the transform returned, verbatim — in particular, when
`β` is itself a promise type, a pending value returned by the transform is
not awaited or unwrapped. -/
theorem asyncMaybe_success (α β : Type) (g : α → Option β)
    (S : AsyncSchema α) (x : α)
    (h : S.safeParseAsync x = .ok (.success x)) :
    AsyncMaybe (fun a => Except.ok (g a)) S (.ok x) = .ok (none, g x) := by
  simp [AsyncMaybe, asyncBody, h]

/-- C4 witness: the transform returns a pending value that is itself
rejected; the async validator still resolves to absent error together with
that pending value, unresolved, in the value slot. -/
theorem asyncMaybe_success_witness :
    boolAsyncSchema.safeParseAsync true = .ok (.success true) ∧
    AsyncMaybe
        (fun _ => Except.ok
          (some (Except.error "late rejection" : Except JSError String)))
        boolAsyncSchema (.ok true)
      = .ok (none, some (Except.error "late rejection")) :=
  ⟨rfl, asyncMaybe_success Bool (Except JSError String)
    (fun _ => some (Except.error "late rejection")) boolAsyncSchema true rfl⟩

/-- C6: in the synchronous validator, if validation succeeds but the
transform throws `e`, the exception propagates to the caller — the call
throws `e` and no result pair is returned. -/
theorem maybe_transform_throws (α β : Type)
    (fn : α → Except JSError (Option β)) (S : Schema α) (x : α) (e : JSError)
    (h : S.safeParse x = .success x) (hf : fn x = .error e) :
    Maybe fn S x = .error e := by
  simp [Maybe, h, hf]

/-- C6 witness: a throwing transform on a conforming number input makes the
synchronous validator itself throw with the same error. -/
theorem maybe_transform_throws_witness :
    natSchema.safeParse 4 = .success 4 ∧ throwingNatTransform 4 = .error "boom" ∧
    Maybe throwingNatTransform natSchema 4 = .error "boom" :=
  ⟨rfl, rfl, maybe_transform_throws Nat Nat throwingNatTransform natSchema
    4 "boom" rfl rfl⟩

/-- C8: if the schema's failure outcome carries no error object, the
synchronous validator returns `(none, none)` — an absent error
representation, with no synthesized message. -/
theorem maybe_no_error_message (α β : Type)
    (fn : α → Except JSError (Option β)) (S : Schema α) (x : α)
    (h : S.safeParse x = .failure none) :
    Maybe fn S x = .ok (none, none) := by
  simp [Maybe, h]

/-- C8 witness: a schema failing without an error object yields the pair
with both slots absent. -/
theorem maybe_no_error_message_witness :
    noMessageSchema.safeParse true = .failure none ∧
    Maybe (fun b => Except.ok (some b)) noMessageSchema true = .ok (none, none) :=
  ⟨rfl, maybe_no_error_message Bool Bool (fun b => Except.ok (some b))
    noMessageSchema true rfl⟩

/-- C10: when validation fails, the synchronous validator's result does not
depend on the transform: any two transforms give the same result pair, so
the transform is never consulted on the failure path. -/
theorem maybe_failure_ignores_transform (α β : Type)
    (f g : α → Except JSError (Option β)) (S : Schema α) (x : α)
    (e : Option ZodError) (h : S.safeParse x = .failure e) :
    Maybe f S x = Maybe g S x := by
  unfold Maybe
  rw [h]

/-- C10 witness: two transforms that disagree on the rejected input still
produce identical results from the synchronous validator. -/
theorem maybe_failure_ignores_transform_witness :
    (Except.ok (some true) : Except JSError (Option Bool)) ≠
        Except.ok (some false) ∧
    Maybe (fun _ => Except.ok (some true)) rejectBoolSchema true =
      Maybe (fun _ => Except.ok (some false)) rejectBoolSchema true :=
  ⟨by simp, maybe_failure_ignores_transform Bool Bool
    (fun _ => Except.ok (some true)) (fun _ => Except.ok (some false))
    rejectBoolSchema true (some ⟨"rejected"⟩) rfl⟩

/-- C1 counterexample: with a transform that returns null (as the
repository's own example `Maybe<Product>(() => {}, productSchema)` does) on
a conforming input, the synchronous validator returns a pair whose two
elements are BOTH absent, so it is not the case that exactly one element is
non-empty. -/
theorem resultPair_exclusive_counterexample :
    Maybe nullTransform natSchema 0 = .ok (none, none) ∧
    ¬ exactlyOne ((none : Option String), (none : Option Nat)) :=
  ⟨rfl, by simp [exactlyOne]⟩

/-- C1 (amended): whenever either validator returns a result pair, error and
value are never both present; and under the additional assumptions that the
schema's failure outcomes always carry an error object and that the
transform never returns an empty value, exactly one of the two elements is
non-empty. -/
theorem resultPair_exclusive :
    (∀ (α β : Type) (fn : α → Except JSError (Option β)) (S : Schema α)
        (x : α) (p : Option String × Option β),
        Maybe fn S x = Except.ok p → ¬ (p.1 ≠ none ∧ p.2 ≠ none)) ∧
    (∀ (α β : Type) (fn : α → Except JSError (Option β)) (S : AsyncSchema α)
        (d : Except JSError α) (p : Option String × Option β),
        AsyncMaybe fn S d = Except.ok p → ¬ (p.1 ≠ none ∧ p.2 ≠ none)) ∧
    (∀ (α β : Type) (fn : α → Except JSError (Option β)) (S : Schema α)
        (x : α) (p : Option String × Option β),
        (∀ y, S.safeParse y ≠ .failure none) →
        (∀ d v, fn d = Except.ok v → v ≠ none) →
        Maybe fn S x = Except.ok p → exactlyOne p) ∧
    (∀ (α β : Type) (fn : α → Except JSError (Option β)) (S : AsyncSchema α)
        (d : Except JSError α) (p : Option String × Option β),
        (∀ y, S.safeParseAsync y ≠ Except.ok (.failure none)) →
        (∀ dd v, fn dd = Except.ok v → v ≠ none) →
        AsyncMaybe fn S d = Except.ok p → exactlyOne p) := by
  refine ⟨?_, ?_, ?_, ?_⟩
  · intro α β fn S x p h hb
    cases hS : S.safeParse x with
    | success d =>
      cases hf : fn d with
      | error e => simp [Maybe, hS, hf] at h
      | ok v =>
        simp [Maybe, hS, hf] at h
        cases h
        exact hb.1 rfl
    | failure e =>
      simp [Maybe, hS] at h
      cases h
      exact hb.2 rfl
  · intro α β fn S d p h hb
    cases d with
    | error e =>
      simp [AsyncMaybe, asyncBody] at h
      cases h
      exact hb.2 rfl
    | ok x =>
      cases hP : S.safeParseAsync x with
      | error e =>
        simp [AsyncMaybe, asyncBody, hP] at h
        cases h
        exact hb.2 rfl
      | ok r =>
        cases r with
        | success dd =>
          cases hf : fn dd with
          | error e =>
            simp [AsyncMaybe, asyncBody, hP, hf] at h
            cases h
            exact hb.2 rfl
          | ok v =>
            simp [AsyncMaybe, asyncBody, hP, hf] at h
            cases h
            exact hb.1 rfl
        | failure e =>
          simp [AsyncMaybe, asyncBody, hP] at h
          cases h
          exact hb.2 rfl
  · intro α β fn S x p hmsg hfn h
    cases hS : S.safeParse x with
    | success d =>
      cases hf : fn d with
      | error e => simp [Maybe, hS, hf] at h
      | ok v =>
        simp [Maybe, hS, hf] at h
        cases h
        exact Or.inr ⟨rfl, hfn d v hf⟩
    | failure e =>
      cases e with
      | none => exact absurd hS (hmsg x)
      | some z =>
        simp [Maybe, hS] at h
        cases h
        exact Or.inl ⟨by simp, rfl⟩
  · intro α β fn S d p hmsg hfn h
    cases d with
    | error e =>
      simp [AsyncMaybe, asyncBody] at h
      cases h
      exact Or.inl ⟨by simp, rfl⟩
    | ok x =>
      cases hP : S.safeParseAsync x with
      | error e =>
        simp [AsyncMaybe, asyncBody, hP] at h
        cases h
        exact Or.inl ⟨by simp, rfl⟩
      | ok r =>
        cases r with
        | success dd =>
          cases hf : fn dd with
          | error e =>
            simp [AsyncMaybe, asyncBody, hP, hf] at h
            cases h
            exact Or.inl ⟨by simp, rfl⟩
          | ok v =>
            simp [AsyncMaybe, asyncBody, hP, hf] at h
            cases h
            exact Or.inr ⟨rfl, hfn dd v hf⟩
        | failure e =>
          cases e with
          | none => exact absurd hP (hmsg x)
          | some z =>
            simp [AsyncMaybe, asyncBody, hP] at h
            cases h
            exact Or.inl ⟨by simp, rfl⟩

/-- C1 witness: on a conforming boolean input with a transform returning a
non-empty value, the result pair of the synchronous validator has exactly
one non-empty element. -/
theorem resultPair_exclusive_witness :
    exactlyOne ((none : Option String), some true) :=
  resultPair_exclusive.2.2.1 Bool Bool (fun b => Except.ok (some b))
    ⟨fun b => .success b⟩ true (none, some true)
    (by intro y; simp) (by intro d v hv; cases hv; simp) rfl

/-- C5 counterexample: the transform call sits inside the async `try`, so a
transform that throws on a conforming resolved input does NOT produce a
rejection — the promise fulfills with exactly the `("Unknown error", null)`
pair, contradicting the claim. -/
theorem asyncMaybe_transform_caught_counterexample :
    AsyncMaybe explodingTransform boolAsyncSchema (.ok true)
      = .ok (some "Unknown error", none) := rfl

/-- C5 (amended): in the asynchronous validator a transform that throws IS
caught by the protective scope: for every schema, conforming resolved
input, and transform throwing `e`, the promise fulfills with the pair
`("Unknown error", none)` rather than rejecting. -/
theorem asyncMaybe_transform_caught (α β : Type)
    (fn : α → Except JSError (Option β)) (S : AsyncSchema α) (x : α)
    (e : JSError) (h : S.safeParseAsync x = .ok (.success x))
    (hf : fn x = .error e) :
    AsyncMaybe fn S (.ok x) = .ok (some "Unknown error", none) := by
  simp [AsyncMaybe, asyncBody, h, hf]

/-- C5 witness: a throwing transform on a conforming resolved number input
yields the fulfilled sentinel pair. -/
theorem asyncMaybe_transform_caught_witness :
    natAsyncSchema.safeParseAsync 7 = .ok (.success 7) ∧
    throwingNatTransform 7 = .error "boom" ∧
    AsyncMaybe throwingNatTransform natAsyncSchema (.ok 7)
      = .ok (some "Unknown error", none) :=
  ⟨rfl, rfl, asyncMaybe_transform_caught Nat Nat throwingNatTransform
    natAsyncSchema 7 "boom" rfl rfl⟩

/-- C9: the promise built by the async validator always fulfills with a
result pair and never rejects; whenever any step of the protected body
(input resolution, validation, or the transform call) throws, the fulfilled
pair is exactly `("Unknown error", none)`. -/
theorem asyncMaybe_never_rejects (α β : Type)
    (fn : α → Except JSError (Option β)) (S : AsyncSchema α)
    (d : Except JSError α) :
    ∃ p, AsyncMaybe fn S d = Except.ok p ∧
      ∀ e, asyncBody fn S d = Except.error e →
        p = (some "Unknown error", none) := by
  cases hB : asyncBody fn S d with
  | error e =>
    refine ⟨(some "Unknown error", none), ?_, fun _ _ => rfl⟩
    simp [AsyncMaybe, hB]
  | ok q =>
    refine ⟨q, ?_, ?_⟩
    · simp [AsyncMaybe, hB]
    · intro e he
      simp at he

/-- C9 witness: with a throwing transform on a resolved conforming input,
the async validator's promise fulfills with the sentinel pair (it does not
reject). -/
theorem asyncMaybe_never_rejects_witness :
    AsyncMaybe explodingTransform boolAsyncSchema (.ok false)
      = .ok (some "Unknown error", none) := by
  obtain ⟨p, hp, hs⟩ := asyncMaybe_never_rejects Bool Bool explodingTransform
    boolAsyncSchema (.ok false)
  rw [hs "kaboom" rfl] at hp
  exact hp

/-- C7: for every transform and every input violating at least one rule of
the user schema, the synchronous validator returns an error string that
decodes to exactly one entry per independent rule violation, with the value
absent. -/
theorem maybe_diagnostic_aggregation (β : Type)
    (fn : UserInput → Except JSError (Option β)) (u : UserInput)
    (h : userIssues u ≠ []) :
    ∃ s, Maybe fn userSchema u = .ok (some s, none) ∧
      (decodeEntries s).length = (userIssues u).length := by
  refine ⟨encodeIssues (userIssues u), ?_, ?_⟩
  · simp [Maybe, userSchema, h]
  · by_cases h1 : u.name.length < 2 <;>
      by_cases h2 : 50 < u.name.length <;>
      by_cases h3 : u.age ≤ 0 <;>
      by_cases h4 : emailValid u.email = true <;>
      simp [userIssues, h1, h2, h3, h4] at h ⊢ <;>
      decide

/-- C7 witness: the input `{name:"A", age:-5, email:"invalid"}` violates
three independent rules; the error decodes to 3 entries and the value is
absent. -/
theorem maybe_diagnostic_aggregation_witness :
    userIssues ⟨"A", -5, "invalid"⟩ ≠ [] ∧
    ∃ s, Maybe displayNameTransform userSchema ⟨"A", -5, "invalid"⟩
        = .ok (some s, none) ∧ (decodeEntries s).length = 3 :=
  ⟨by decide, maybe_diagnostic_aggregation String displayNameTransform
    ⟨"A", -5, "invalid"⟩ (by decide)⟩

end MaybeZod
